import Mathlib

/-
Verification of the core signaling server (src/signaling-server.js).

The embedding models the four process-wide stores of the server
(`connectedUsers`, `waitingUsers`, `activeRooms`, and the socket-io room
membership created by `socket.join`) as a single `ServerState` record, and
every socket event handler as a pure function
`ServerState → ServerState × List (Target × Event)`, returning the new
state together with the list of `emit` calls the handler performs
(each tagged with its destination: a single socket, or a socket-io room).

JavaScript `Map` is modelled as an insertion-ordered association list
(`mapGet` / `mapSet` / `mapDelete`), and the JS `Set` `waitingUsers` as an
insertion-ordered duplicate-free `List String` (`setAdd` / `setDelete`);
`findPartner` iterates it in insertion order exactly as `for ... of` does.

In the source, handlers mutate the `User` object they fetched from
`connectedUsers`; the embedding renders such a mutation as `updateUser`
applied at the key the object is stored under.  A `User` fetched via
`connectedUsers.get(socket.id)` is stored under `socket.id`; a partner
object obtained from `findPartner` or `Room.getOtherUser` is stored under
its own `socketId` field, because `register-user` is the only code that
inserts into `connectedUsers` and it always uses the socket id both as key
and as the `socketId` field of the stored object (the `keyInv` invariant
below).

Nondeterministic inputs of the source (`Date.now()`, `generateRoomId()`)
are passed to the handlers as explicit parameters (`now`, `newRoomId`).
-/

/-- The optional profile attributes carried by the `register-user` payload
(`userInfo`); `none` models an absent field. -/
structure UserInfo where
  university : Option String
  gender : Option String
  year : Option String
  deriving Repr, DecidableEq

/-- A `register-user` payload with no profile fields, `{}` in the source. -/
def emptyInfo : UserInfo := ⟨none, none, none⟩

/-- The `User` class of the source, one record per active connection. -/
structure User where
  socketId : String
  userId : String
  university : String
  gender : String
  year : String
  joinedAt : Nat
  isWaiting : Bool
  currentRoom : Option String
  partnerId : Option String
  deriving Repr, DecidableEq

/-- The `User` constructor: absent profile fields default to the empty
string (`userInfo.university || ''` and so on in the source). -/
def mkUser (socketId userId : String) (userInfo : UserInfo) (now : Nat) : User :=
  { socketId := socketId
    userId := userId
    university := userInfo.university.getD ""
    gender := userInfo.gender.getD ""
    year := userInfo.year.getD ""
    joinedAt := now
    isWaiting := false
    currentRoom := none
    partnerId := none }

/-- The `Room` class of the source: a session pairing two users. -/
structure Room where
  roomId : String
  users : List User
  createdAt : Nat
  isActive : Bool
  deriving Repr, DecidableEq

/-- `Room.getOtherUser`: `this.users.find(user => user.userId !== userId)`. -/
def Room.getOtherUser (room : Room) (userId : String) : Option User :=
  room.users.find? (fun u => u.userId != userId)

/-- The process-wide `matchingPreferences` configuration object. -/
structure MatchingPreferences where
  sameUniversity : Bool
  sameGender : Bool
  maxWaitTime : Nat
  deriving Repr, DecidableEq

/-- The value the source assigns to `matchingPreferences`. -/
def matchingPreferences : MatchingPreferences :=
  { sameUniversity := false, sameGender := false, maxWaitTime := 30000 }

/-- Destination of an `emit` call: a single socket (`socket.emit` or
`io.to(socketId)`) or a socket-io room (`io.to(roomId)`). -/
inductive Target where
  | sock (socketId : String)
  | room (roomId : String)
  deriving Repr, DecidableEq

/-- The outbound messages emitted by the core handlers, with the fields the
source attaches to each. -/
inductive Event where
  | registrationSuccess (userId : String)
  | errMsg (message : String)
  | searchingForPartner
  | partnerSearchTimeout
  | partnerFound (roomId partnerId partnerUniversity partnerYear : String)
  | incomingCall (roomId callerId callerUniversity callerYear : String)
  | callAccepted (roomId acceptedBy : String)
  | callRejected (rejectedBy : String)
  | offer (sdp ty fromId : String)
  | answer (sdp ty fromId : String)
  | iceCandidate (candidate fromId : String)
  | userLeft (userId : String)
  deriving Repr, DecidableEq

/-- The mutable process state of the server: the three core stores plus the
socket-io room membership established by `socket.join(roomId)`. -/
structure ServerState where
  connectedUsers : List (String × User)
  waitingUsers : List String
  activeRooms : List (String × Room)
  roomMembers : List (String × List String)
  deriving Repr, DecidableEq

/-- The state at process start: all stores empty. -/
def emptyState : ServerState := ⟨[], [], [], []⟩

/-- `Map.get`: the value of the first (and in well-formed states only)
binding of the key. -/
def mapGet {α : Type} : List (String × α) → String → Option α
  | [], _ => none
  | p :: ps, k => if p.1 == k then some p.2 else mapGet ps k

/-- `Map.set`: replace the binding in place if the key is present
(preserving insertion order), otherwise append a new binding. -/
def mapSet {α : Type} : List (String × α) → String → α → List (String × α)
  | [], k, v => [(k, v)]
  | p :: ps, k, v => if p.1 == k then (k, v) :: ps else p :: mapSet ps k v

/-- `Map.delete`. -/
def mapDelete {α : Type} (m : List (String × α)) (k : String) : List (String × α) :=
  m.filter (fun p => p.1 != k)

/-- `Set.add` on the insertion-ordered waiting list. -/
def setAdd (s : List String) (x : String) : List String :=
  if s.contains x then s else s ++ [x]

/-- `Set.delete` on the waiting list. -/
def setDelete (s : List String) (x : String) : List String :=
  s.filter (fun y => y != x)

/-- In-place mutation of the `User` object stored under `sid`: the binding
holding that object gets the mutated value, every other binding is kept. -/
def updateUser : List (String × User) → String → (User → User) → List (String × User)
  | [], _, _ => []
  | p :: ps, sid, f =>
    (if p.1 == sid then (p.1, f p.2) else p) :: updateUser ps sid f

/-- `user.currentRoom = null; user.partnerId = null;` -/
def clearRoomFields (u : User) : User :=
  { u with currentRoom := none, partnerId := none }

/-- `areUsersCompatible` from the source. -/
def areUsersCompatible (prefs : MatchingPreferences) (user1 user2 : User) : Bool :=
  if user1.userId == user2.userId then false
  else if prefs.sameUniversity && user1.university != user2.university then false
  else if prefs.sameGender && user1.gender != user2.gender then false
  else true

/-- The loop body of `findPartner`: scan the waiting list in insertion
order, look each socket id up in `connectedUsers`, and return the first
stored user compatible with `user`. -/
def findPartnerAux (prefs : MatchingPreferences) (connected : List (String × User))
    (user : User) : List String → Option User
  | [] => none
  | w :: ws =>
    match mapGet connected w with
    | some potentialPartner =>
      if areUsersCompatible prefs user potentialPartner then some potentialPartner
      else findPartnerAux prefs connected user ws
    | none => findPartnerAux prefs connected user ws

/-- `findPartner` from the source. -/
def findPartner (prefs : MatchingPreferences) (s : ServerState) (user : User) :
    Option User :=
  findPartnerAux prefs s.connectedUsers user s.waitingUsers

/-- The `register-user` handler: builds a fresh `User` and stores it under
the socket id, then acknowledges.  Nothing else is touched. -/
def registerUser (s : ServerState) (socketId userId : String) (userInfo : UserInfo)
    (now : Nat) : ServerState × List (Target × Event) :=
  let user := mkUser socketId userId userInfo now
  ({ s with connectedUsers := mapSet s.connectedUsers socketId user },
   [(Target.sock socketId, Event.registrationSuccess userId)])

/-- The `find-random-partner` handler. -/
def findRandomPartner (prefs : MatchingPreferences) (s : ServerState)
    (socketId newRoomId : String) (now : Nat) : ServerState × List (Target × Event) :=
  match mapGet s.connectedUsers socketId with
  | none => (s, [(Target.sock socketId, Event.errMsg "User not registered")])
  | some user =>
    if user.isWaiting then
      (s, [(Target.sock socketId, Event.errMsg "Already searching for partner")])
    else
      match findPartner prefs s user with
      | some partner =>
        let user2 : User :=
          { user with currentRoom := some newRoomId, partnerId := some partner.userId,
                      isWaiting := false }
        let partner2 : User :=
          { partner with currentRoom := some newRoomId, partnerId := some user.userId,
                         isWaiting := false }
        let room : Room :=
          { roomId := newRoomId, users := [user2, partner2], createdAt := now,
            isActive := true }
        ({ s with
            waitingUsers := setDelete (setDelete s.waitingUsers user.socketId) partner.socketId,
            activeRooms := mapSet s.activeRooms newRoomId room,
            connectedUsers :=
              updateUser
                (updateUser s.connectedUsers socketId
                  (fun v => { v with currentRoom := some newRoomId,
                                     partnerId := some partner.userId, isWaiting := false }))
                partner.socketId
                (fun v => { v with currentRoom := some newRoomId,
                                   partnerId := some user.userId, isWaiting := false }),
            roomMembers := mapSet s.roomMembers newRoomId [socketId, partner.socketId] },
         [(Target.sock socketId,
             Event.partnerFound newRoomId partner.userId partner.university partner.year),
          (Target.sock partner.socketId,
             Event.incomingCall newRoomId user.userId user.university user.year)])
      | none =>
        ({ s with
            connectedUsers := updateUser s.connectedUsers socketId
              (fun v => { v with isWaiting := true }),
            waitingUsers := setAdd s.waitingUsers socketId },
         [(Target.sock socketId, Event.searchingForPartner)])

/-- The `setTimeout` callback armed by `find-random-partner`.  The source
performs no registry lookup here: the closure captured the `User` object
`user` that was the registry entry when the search began, and tests and
mutates that object directly.  `user` is the captured object's value at
firing time, and `isCurrent` says whether the registry entry under
`socketId` is still that very object (it is, unless a later
re-registration replaced it — the only operation that swaps the stored
object).  The queue deletion acts on the shared `waitingUsers` either
way; the `user.isWaiting = false` mutation is visible through the
registry only when the captured object is still current (a stale object
is referenced by nothing whose `isWaiting` is ever read again). -/
def searchTimeout (s : ServerState) (socketId : String) (user : User)
    (isCurrent : Bool) : ServerState × List (Target × Event) :=
  if user.isWaiting && s.waitingUsers.contains socketId then
    ({ s with
        waitingUsers := setDelete s.waitingUsers socketId,
        connectedUsers :=
          if isCurrent then
            updateUser s.connectedUsers socketId (fun v => { v with isWaiting := false })
          else s.connectedUsers },
     [(Target.sock socketId, Event.partnerSearchTimeout)])
  else (s, [])

/-- The `accept-call` handler: validation failures produce an explicit
error notice; on success the `call-accepted` signal is broadcast to the
socket-io room of the session. -/
def acceptCall (s : ServerState) (socketId : String) :
    ServerState × List (Target × Event) :=
  match mapGet s.connectedUsers socketId with
  | none => (s, [(Target.sock socketId, Event.errMsg "No active call to accept")])
  | some user =>
    match user.currentRoom with
    | none => (s, [(Target.sock socketId, Event.errMsg "No active call to accept")])
    | some roomId =>
      match mapGet s.activeRooms roomId with
      | none => (s, [(Target.sock socketId, Event.errMsg "Room not found")])
      | some room =>
        match room.getOtherUser user.userId with
        | some _ =>
          (s, [(Target.room room.roomId, Event.callAccepted room.roomId user.userId)])
        | none => (s, [])

/-- The `reject-call` handler: every validation failure is a silent
return; on success the peer is notified and the room torn down. -/
def rejectCall (s : ServerState) (socketId : String) :
    ServerState × List (Target × Event) :=
  match mapGet s.connectedUsers socketId with
  | none => (s, [])
  | some user =>
    match user.currentRoom with
    | none => (s, [])
    | some roomId =>
      match mapGet s.activeRooms roomId with
      | none => (s, [])
      | some room =>
        match room.getOtherUser user.userId with
        | none => (s, [])
        | some partner =>
          let cleared := updateUser s.connectedUsers socketId clearRoomFields
          let cleared2 :=
            match mapGet cleared partner.socketId with
            | some _ => updateUser cleared partner.socketId clearRoomFields
            | none => cleared
          ({ s with activeRooms := mapDelete s.activeRooms room.roomId,
                    connectedUsers := cleared2 },
           [(Target.sock partner.socketId, Event.callRejected user.userId)])

/-- The `offer` handler: forwarded to the partner socket only, tagged with
the sender userId; dropped silently on any validation failure. -/
def offer (s : ServerState) (socketId sdp ty : String) :
    ServerState × List (Target × Event) :=
  match mapGet s.connectedUsers socketId with
  | none => (s, [])
  | some user =>
    match user.currentRoom with
    | none => (s, [])
    | some roomId =>
      match mapGet s.activeRooms roomId with
      | none => (s, [])
      | some room =>
        match room.getOtherUser user.userId with
        | none => (s, [])
        | some partner =>
          (s, [(Target.sock partner.socketId, Event.offer sdp ty user.userId)])

/-- The `answer` handler, identical in shape to `offer`. -/
def answer (s : ServerState) (socketId sdp ty : String) :
    ServerState × List (Target × Event) :=
  match mapGet s.connectedUsers socketId with
  | none => (s, [])
  | some user =>
    match user.currentRoom with
    | none => (s, [])
    | some roomId =>
      match mapGet s.activeRooms roomId with
      | none => (s, [])
      | some room =>
        match room.getOtherUser user.userId with
        | none => (s, [])
        | some partner =>
          (s, [(Target.sock partner.socketId, Event.answer sdp ty user.userId)])

/-- The `ice-candidate` handler. -/
def iceCandidate (s : ServerState) (socketId candidate : String) :
    ServerState × List (Target × Event) :=
  match mapGet s.connectedUsers socketId with
  | none => (s, [])
  | some user =>
    match user.currentRoom with
    | none => (s, [])
    | some roomId =>
      match mapGet s.activeRooms roomId with
      | none => (s, [])
      | some room =>
        match room.getOtherUser user.userId with
        | none => (s, [])
        | some partner =>
          (s, [(Target.sock partner.socketId, Event.iceCandidate candidate user.userId)])

/-- The `end-call` handler: notify the peer (if resolvable), delete the
room, clear the sender, and clear the partner entry if still registered.
The partner lookup happens after the sender was cleared, as in the source. -/
def endCall (s : ServerState) (socketId : String) :
    ServerState × List (Target × Event) :=
  match mapGet s.connectedUsers socketId with
  | none => (s, [])
  | some user =>
    match user.currentRoom with
    | none => (s, [])
    | some roomId =>
      match mapGet s.activeRooms roomId with
      | none => (s, [])
      | some room =>
        match room.getOtherUser user.userId with
        | none =>
          ({ s with activeRooms := mapDelete s.activeRooms room.roomId,
                    connectedUsers := updateUser s.connectedUsers socketId clearRoomFields },
           [])
        | some partner =>
          let cleared := updateUser s.connectedUsers socketId clearRoomFields
          let cleared2 :=
            match mapGet cleared partner.socketId with
            | some _ => updateUser cleared partner.socketId clearRoomFields
            | none => cleared
          ({ s with activeRooms := mapDelete s.activeRooms room.roomId,
                    connectedUsers := cleared2 },
           [(Target.sock partner.socketId, Event.userLeft user.userId)])

/-- The `disconnect` handler: drop the queue entry, notify and clear the
session partner if any, delete the room, and remove the user record. -/
def disconnectHandler (s : ServerState) (socketId : String) :
    ServerState × List (Target × Event) :=
  match mapGet s.connectedUsers socketId with
  | none => (s, [])
  | some user =>
    match user.currentRoom with
    | none =>
      ({ s with waitingUsers := setDelete s.waitingUsers socketId,
                connectedUsers := mapDelete s.connectedUsers socketId }, [])
    | some roomId =>
      match mapGet s.activeRooms roomId with
      | none =>
        ({ s with waitingUsers := setDelete s.waitingUsers socketId,
                  connectedUsers := mapDelete s.connectedUsers socketId }, [])
      | some room =>
        match room.getOtherUser user.userId with
        | none =>
          ({ s with waitingUsers := setDelete s.waitingUsers socketId,
                    activeRooms := mapDelete s.activeRooms room.roomId,
                    connectedUsers := mapDelete s.connectedUsers socketId }, [])
        | some partner =>
          let cleared :=
            match mapGet s.connectedUsers partner.socketId with
            | some _ => updateUser s.connectedUsers partner.socketId clearRoomFields
            | none => s.connectedUsers
          ({ s with waitingUsers := setDelete s.waitingUsers socketId,
                    activeRooms := mapDelete s.activeRooms room.roomId,
                    connectedUsers := mapDelete cleared socketId },
           [(Target.sock partner.socketId, Event.userLeft user.userId)])

/-- The staleness threshold of `cleanupInactiveUsers`: 5 minutes. -/
def maxInactiveTime : Nat := 5 * 60 * 1000

/-- The eviction test of `cleanupInactiveUsers`:
`now - user.joinedAt > maxInactiveTime && !user.currentRoom`. -/
def isStaleUser (now : Nat) (u : User) : Bool :=
  decide (maxInactiveTime < now - u.joinedAt) && u.currentRoom.isNone

/-- `cleanupInactiveUsers`, the periodic sweep: silently evicts every
stale sessionless user from the registry and the waiting list.  It emits
nothing (the source only logs). -/
def cleanupInactiveUsers (s : ServerState) (now : Nat) :
    ServerState × List (Target × Event) :=
  ({ s with
      connectedUsers := s.connectedUsers.filter (fun p => !(isStaleUser now p.2)),
      waitingUsers := s.waitingUsers.filter (fun w =>
        match mapGet s.connectedUsers w with
        | some u => !(isStaleUser now u)
        | none => true) },
   [])

/-- Registry key discipline on a raw registry list: every binding stores a
user whose `socketId` field is the key it is stored under.  `register-user`
is the only inserting handler and it establishes this. -/
def keyInvM (m : List (String × User)) : Prop :=
  ∀ p ∈ m, (p : String × User).2.socketId = p.1

/-- Registry key discipline of a server state. -/
def keyInv (s : ServerState) : Prop :=
  keyInvM s.connectedUsers

/-- The socket id `x` currently has a registered user in the `Searching`
state (`isWaiting`) in the raw registry `m`. -/
def waitingAt (m : List (String × User)) (x : String) : Prop :=
  ∃ u, mapGet m x = some u ∧ u.isWaiting = true

/-- Queue-membership coherence on raw stores: a socket id is in the
waiting list exactly when its registered user is `Searching`. -/
def queueInvM (m : List (String × User)) (q : List String) : Prop :=
  ∀ x, x ∈ q ↔ waitingAt m x

/-- The queue-membership invariant of the spec, on a server state. -/
def queueInv (s : ServerState) : Prop :=
  queueInvM s.connectedUsers s.waitingUsers

/-- Whether an emitted event with destination `t` is delivered to the
socket `sid`: direct emission, or broadcast to a socket-io room that
`sid` has joined. -/
def targetReaches (s : ServerState) (t : Target) (sid : String) : Bool :=
  match t with
  | Target.sock x => x == sid
  | Target.room r => ((mapGet s.roomMembers r).getD []).contains sid

theorem mapGet_mapSet_self {α : Type} (m : List (String × α)) (k : String) (v : α) :
    mapGet (mapSet m k v) k = some v := by
  induction m with
  | nil => simp [mapSet, mapGet]
  | cons p ps ih =>
    by_cases h : p.1 = k
    · simp [mapSet, mapGet, h]
    · simp [mapSet, mapGet, h, ih]

theorem mapGet_mapSet_ne {α : Type} (m : List (String × α)) (k k2 : String) (v : α)
    (h : k2 ≠ k) : mapGet (mapSet m k v) k2 = mapGet m k2 := by
  induction m with
  | nil => simp [mapSet, mapGet, (Ne.symm h)]
  | cons p ps ih =>
    by_cases hp : p.1 = k
    · simp [mapSet, mapGet, hp, (Ne.symm h)]
    · simp [mapSet, mapGet, hp, ih]

theorem mapGet_mapDelete_self {α : Type} (m : List (String × α)) (k : String) :
    mapGet (mapDelete m k) k = none := by
  induction m with
  | nil => simp [mapDelete, mapGet]
  | cons p ps ih =>
    by_cases hp : p.1 = k
    · simpa [mapDelete, List.filter_cons, hp] using ih
    · simpa [mapDelete, List.filter_cons, mapGet, hp] using ih

theorem mapGet_mapDelete_ne {α : Type} (m : List (String × α)) (k k2 : String)
    (h : k2 ≠ k) : mapGet (mapDelete m k) k2 = mapGet m k2 := by
  induction m with
  | nil => simp [mapDelete, mapGet]
  | cons p ps ih =>
    by_cases hp : p.1 = k
    · have hpk : ¬ p.1 = k2 := fun hh => h (hh ▸ hp)
      simpa [mapDelete, List.filter_cons, mapGet, hp, hpk, (Ne.symm h)] using ih
    · by_cases hq : p.1 = k2
      · simp [mapDelete, List.filter_cons, mapGet, hp, hq, h]
      · simpa [mapDelete, List.filter_cons, mapGet, hp, hq, h] using ih

theorem mapGet_updateUser (m : List (String × User)) (sid : String) (f : User → User)
    (w : String) :
    mapGet (updateUser m sid f) w =
      if w = sid then (mapGet m w).map f else mapGet m w := by
  induction m with
  | nil => simp only [updateUser, mapGet, Option.map_none']; split <;> rfl
  | cons p ps ih =>
    by_cases hps : p.1 = sid
    · by_cases hpw : p.1 = w
      · have hw : w = sid := by rw [← hpw, hps]
        simp [updateUser, mapGet, hps, hpw, hw]
      · have hw : ¬ w = sid := fun hh => hpw (hps.trans hh.symm)
        have hw2 : ¬ sid = w := fun hh => hw hh.symm
        simp [updateUser, mapGet, hps, hpw, hw, hw2, ih]
    · by_cases hpw : p.1 = w
      · have hw : ¬ w = sid := fun hh => hps (hpw.trans hh)
        simp [updateUser, mapGet, hps, hpw, hw]
      · simp [updateUser, mapGet, hps, hpw, ih]

theorem mapGet_some_mem {α : Type} (m : List (String × α)) (k : String) (v : α)
    (h : mapGet m k = some v) : (k, v) ∈ m := by
  induction m with
  | nil => cases h
  | cons p ps ih =>
    simp only [mapGet] at h
    split at h
    · next hc =>
      have hk : p.1 = k := by simpa using hc
      injection h with h2
      rw [← hk, ← h2]
      exact List.mem_cons_self p ps
    · exact List.mem_cons_of_mem _ (ih h)

theorem mem_setDelete (s : List String) (x y : String) :
    y ∈ setDelete s x ↔ y ∈ s ∧ y ≠ x := by
  simp [setDelete, List.mem_filter]

theorem mem_setAdd (s : List String) (x y : String) :
    y ∈ setAdd s x ↔ y ∈ s ∨ y = x := by
  by_cases hx : x ∈ s
  · have hc : s.contains x = true := by simpa using hx
    simp only [setAdd, hc, if_true]
    constructor
    · exact Or.inl
    · rintro (hy | hy)
      · exact hy
      · rw [hy]; exact hx
  · have hc : ¬ s.contains x = true := by simpa using hx
    simp [setAdd, hc, hx, List.mem_append]

theorem findPartnerAux_spec (prefs : MatchingPreferences)
    (connected : List (String × User)) (user : User) (ws : List String) (p : User)
    (h : findPartnerAux prefs connected user ws = some p) :
    ∃ w ∈ ws, mapGet connected w = some p ∧ areUsersCompatible prefs user p = true := by
  induction ws with
  | nil => cases h
  | cons w ws ih =>
    rcases hm : mapGet connected w with _ | q
    · simp only [findPartnerAux, hm] at h
      obtain ⟨w2, hw2, hh⟩ := ih h
      exact ⟨w2, List.mem_cons_of_mem _ hw2, hh⟩
    · simp only [findPartnerAux, hm] at h
      by_cases hc : areUsersCompatible prefs user q = true
      · rw [if_pos hc] at h
        injection h with h2
        subst h2
        exact ⟨w, List.mem_cons_self _ _, hm, hc⟩
      · rw [if_neg hc] at h
        obtain ⟨w2, hw2, hh⟩ := ih h
        exact ⟨w2, List.mem_cons_of_mem _ hw2, hh⟩

theorem findPartner_spec (prefs : MatchingPreferences) (s : ServerState) (user p : User)
    (h : findPartner prefs s user = some p) :
    ∃ w ∈ s.waitingUsers, mapGet s.connectedUsers w = some p ∧
      areUsersCompatible prefs user p = true :=
  findPartnerAux_spec prefs s.connectedUsers user s.waitingUsers p h

theorem areUsersCompatible_same_userId (prefs : MatchingPreferences) (u v : User)
    (h : u.userId = v.userId) : areUsersCompatible prefs u v = false := by
  simp [areUsersCompatible, h]

theorem keyInv_lookup {m : List (String × User)} (h : keyInvM m) {w : String} {u : User}
    (hu : mapGet m w = some u) : u.socketId = w :=
  h (w, u) (mapGet_some_mem m w u hu)

theorem updateUser_eq_map (m : List (String × User)) (sid : String) (f : User → User) :
    updateUser m sid f = m.map (fun p => if p.1 == sid then (p.1, f p.2) else p) := by
  induction m with
  | nil => rfl
  | cons p ps ih => simp only [updateUser, List.map_cons, ih]

theorem waitingAt_updateUser_preserve (m : List (String × User)) (sid : String)
    (f : User → User) (hf : ∀ u, (f u).isWaiting = u.isWaiting) (x : String) :
    waitingAt (updateUser m sid f) x ↔ waitingAt m x := by
  unfold waitingAt
  rw [mapGet_updateUser]
  by_cases hx : x = sid
  · rw [if_pos hx]
    rcases hq : mapGet m x with _ | u
    · simp
    · simp [hf u]
  · rw [if_neg hx]

theorem not_waitingAt_force_false (m : List (String × User)) (sid : String)
    (f : User → User) (hf : ∀ u, (f u).isWaiting = false) :
    ¬ waitingAt (updateUser m sid f) sid := by
  unfold waitingAt
  rw [mapGet_updateUser, if_pos rfl]
  rintro ⟨u, hu, hw⟩
  rcases hq : mapGet m sid with _ | v
  · rw [hq] at hu; cases hu
  · rw [hq] at hu
    injection hu with h2
    rw [← h2, hf v] at hw
    cases hw

theorem waitingAt_force_true (m : List (String × User)) (sid : String)
    (f : User → User) (u : User) (hu : mapGet m sid = some u)
    (hf : ∀ v, (f v).isWaiting = true) : waitingAt (updateUser m sid f) sid := by
  unfold waitingAt
  rw [mapGet_updateUser, if_pos rfl, hu]
  exact ⟨f u, rfl, hf u⟩

theorem waitingAt_updateUser_ne (m : List (String × User)) (sid : String)
    (f : User → User) (x : String) (hx : x ≠ sid) :
    waitingAt (updateUser m sid f) x ↔ waitingAt m x := by
  unfold waitingAt
  rw [mapGet_updateUser, if_neg hx]

theorem waitingAt_mapSet_self (m : List (String × User)) (k : String) (v : User) :
    waitingAt (mapSet m k v) k ↔ v.isWaiting = true := by
  unfold waitingAt
  rw [mapGet_mapSet_self]
  constructor
  · rintro ⟨u, hu, hw⟩
    injection hu with h2
    rw [h2]
    exact hw
  · intro hw
    exact ⟨v, rfl, hw⟩

theorem waitingAt_mapSet_ne (m : List (String × User)) (k : String) (v : User)
    (x : String) (hx : x ≠ k) : waitingAt (mapSet m k v) x ↔ waitingAt m x := by
  unfold waitingAt
  rw [mapGet_mapSet_ne m k x v hx]

theorem not_waitingAt_mapDelete (m : List (String × User)) (k : String) :
    ¬ waitingAt (mapDelete m k) k := by
  unfold waitingAt
  rw [mapGet_mapDelete_self]
  rintro ⟨u, hu, _⟩
  cases hu

theorem waitingAt_mapDelete_ne (m : List (String × User)) (k x : String) (hx : x ≠ k) :
    waitingAt (mapDelete m k) x ↔ waitingAt m x := by
  unfold waitingAt
  rw [mapGet_mapDelete_ne m k x hx]

theorem queueInvM_updateUser_preserve (m : List (String × User)) (q : List String)
    (sid : String) (f : User → User) (hf : ∀ u, (f u).isWaiting = u.isWaiting)
    (h : queueInvM m q) : queueInvM (updateUser m sid f) q := by
  intro x
  rw [waitingAt_updateUser_preserve m sid f hf x]
  exact h x

theorem queueInvM_force_false (m : List (String × User)) (q : List String)
    (sid : String) (f : User → User) (hf : ∀ u, (f u).isWaiting = false)
    (h : queueInvM m q) : queueInvM (updateUser m sid f) (setDelete q sid) := by
  intro x
  by_cases hx : x = sid
  · subst hx
    constructor
    · intro hmem
      rw [mem_setDelete] at hmem
      exact absurd rfl hmem.2
    · intro hw
      exact absurd hw (not_waitingAt_force_false m x f hf)
  · rw [mem_setDelete, waitingAt_updateUser_ne m sid f x hx]
    constructor
    · rintro ⟨h1, _⟩
      exact (h x).mp h1
    · intro hw
      exact ⟨(h x).mpr hw, hx⟩

theorem queueInvM_force_true (m : List (String × User)) (q : List String)
    (sid : String) (f : User → User) (u : User) (hu : mapGet m sid = some u)
    (hf : ∀ v, (f v).isWaiting = true)
    (h : queueInvM m q) : queueInvM (updateUser m sid f) (setAdd q sid) := by
  intro x
  by_cases hx : x = sid
  · subst hx
    constructor
    · intro _
      exact waitingAt_force_true m x f u hu hf
    · intro _
      rw [mem_setAdd]
      exact Or.inr rfl
  · rw [mem_setAdd, waitingAt_updateUser_ne m sid f x hx]
    constructor
    · rintro (h1 | h1)
      · exact (h x).mp h1
      · exact absurd h1 hx
    · intro hw
      exact Or.inl ((h x).mpr hw)

theorem queueInvM_mapSet_notWaiting (m : List (String × User)) (q : List String)
    (k : String) (v : User) (hv : v.isWaiting = false) (hk : k ∉ q)
    (h : queueInvM m q) : queueInvM (mapSet m k v) q := by
  intro x
  by_cases hx : x = k
  · subst hx
    rw [waitingAt_mapSet_self]
    constructor
    · intro hmem
      exact absurd hmem hk
    · intro hw
      rw [hv] at hw
      cases hw
  · rw [waitingAt_mapSet_ne m k v x hx]
    exact h x

theorem queueInvM_delete (m : List (String × User)) (q : List String) (sid : String)
    (h : queueInvM m q) : queueInvM (mapDelete m sid) (setDelete q sid) := by
  intro x
  by_cases hx : x = sid
  · subst hx
    constructor
    · intro hmem
      rw [mem_setDelete] at hmem
      exact absurd rfl hmem.2
    · intro hw
      exact absurd hw (not_waitingAt_mapDelete m x)
  · rw [mem_setDelete, waitingAt_mapDelete_ne m sid x hx]
    constructor
    · rintro ⟨h1, _⟩
      exact (h x).mp h1
    · intro hw
      exact ⟨(h x).mpr hw, hx⟩

theorem keyInvM_updateUser (m : List (String × User)) (sid : String) (f : User → User)
    (hf : ∀ u, (f u).socketId = u.socketId) (h : keyInvM m) :
    keyInvM (updateUser m sid f) := by
  intro q hq
  rw [updateUser_eq_map] at hq
  obtain ⟨p, hpm, hpq⟩ := List.mem_map.mp hq
  by_cases hp : p.1 = sid
  · rw [if_pos (by simpa using hp)] at hpq
    rw [← hpq]
    show (f p.2).socketId = p.1
    rw [hf p.2]
    exact h p hpm
  · rw [if_neg (by simpa using hp)] at hpq
    rw [← hpq]
    exact h p hpm

theorem keyInvM_mapSet (m : List (String × User)) (k : String) (v : User)
    (hv : v.socketId = k) : keyInvM m → keyInvM (mapSet m k v) := by
  induction m with
  | nil =>
    intro _ q hq
    rcases List.mem_singleton.mp hq with hq2
    rw [hq2]
    exact hv
  | cons p ps ih =>
    intro h q hq
    by_cases hp : p.1 = k
    · rw [mapSet, if_pos (by simpa using hp)] at hq
      rcases List.mem_cons.mp hq with hq2 | hq2
      · rw [hq2]; exact hv
      · exact h q (List.mem_cons_of_mem _ hq2)
    · rw [mapSet, if_neg (by simpa using hp)] at hq
      rcases List.mem_cons.mp hq with hq2 | hq2
      · rw [hq2]; exact h p (List.mem_cons_self _ _)
      · exact ih (fun r hr => h r (List.mem_cons_of_mem _ hr)) q hq2

theorem keyInvM_filter (m : List (String × User)) (g : String × User → Bool)
    (h : keyInvM m) : keyInvM (m.filter g) :=
  fun q hq => h q (List.mem_filter.mp hq).1

theorem keyInvM_mapDelete (m : List (String × User)) (k : String) (h : keyInvM m) :
    keyInvM (mapDelete m k) :=
  keyInvM_filter m _ h

theorem mapGet_joinedAt_updateUser (m : List (String × User)) (sid : String)
    (f : User → User) (hf : ∀ u, (f u).joinedAt = u.joinedAt) (w : String) :
    (mapGet (updateUser m sid f) w).map User.joinedAt =
      (mapGet m w).map User.joinedAt := by
  rw [mapGet_updateUser]
  by_cases hw : w = sid
  · rw [if_pos hw]
    rcases hq : mapGet m w with _ | u
    · simp [hq]
    · simp [hq, hf u]
  · rw [if_neg hw]

/-- Shared scenario: users A and B, empty profiles, registered on sockets
sA and sB under the default configuration. -/
def sReg2 : ServerState :=
  (registerUser (registerUser emptyState "sA" "A" emptyInfo 0).1 "sB" "B" emptyInfo 0).1

/-- Shared scenario: A has requested a search and is waiting (the queue
was empty, so A entered the waiting list). -/
def sAWaiting : ServerState :=
  (findRandomPartner matchingPreferences sReg2 "sA" "r1" 0).1

/-- Shared scenario: B then requests a search; the resulting state and the
notifications emitted by the match. -/
def matchStep : ServerState × List (Target × Event) :=
  findRandomPartner matchingPreferences sAWaiting "sB" "r2" 0

/-- Shared scenario: the state after A and B were matched into room r2. -/
def sMatched : ServerState := matchStep.1

/-- A hand-built in-session participant A, paired with B in room r. -/
def uA1 : User :=
  { socketId := "sA", userId := "A", university := "", gender := "", year := "",
    joinedAt := 0, isWaiting := false, currentRoom := some "r", partnerId := some "B" }

/-- A hand-built in-session participant B, paired with A in room r. -/
def uB1 : User :=
  { socketId := "sB", userId := "B", university := "", gender := "", year := "",
    joinedAt := 0, isWaiting := false, currentRoom := some "r", partnerId := some "A" }

/-- The hand-built session room pairing A and B. -/
def roomAB : Room := { roomId := "r", users := [uA1, uB1], createdAt := 0, isActive := true }

/-- A hand-built state with one active session between A and B. -/
def sessionState : ServerState :=
  { connectedUsers := [("sA", uA1), ("sB", uB1)], waitingUsers := [],
    activeRooms := [("r", roomAB)], roomMembers := [("r", ["sA", "sB"])] }

/-- A registered user with no session and no search, on socket sC. -/
def uC : User := mkUser "sC" "C" emptyInfo 0

/-- A state holding only the idle registered user C. -/
def sRegOnly : ServerState :=
  { connectedUsers := [("sC", uC)], waitingUsers := [], activeRooms := [],
    roomMembers := [] }

/-- Claim C1 (counterexample): in the default-configuration scenario
register(A), register(B), A.search(), B.search(), the match notifications
are partnerFound to B naming A and incomingCall to A naming B — the first
searcher A does not receive the partnerFound notification the claim
promises it. -/
theorem c1_counterexample :
    matchStep.2 = [(Target.sock "sB", Event.partnerFound "r2" "A" "" ""),
                   (Target.sock "sA", Event.incomingCall "r2" "B" "" "")] ∧
    (Target.sock "sA", Event.partnerFound "r2" "B" "" "") ∉ matchStep.2 := by
  refine ⟨by decide, by decide⟩

/-- Claim C1 (amended): for two registered participants with empty
profiles under the default configuration, if A searches first and B
second, then B — the searcher whose request completes the match — receives
partnerFound naming A as partner, A receives incomingCall naming B as
caller, and both notifications carry the same session identifier (the room
id generated for B's search). -/
theorem c1_amended (sA sB uA uB rA rB : String) (t1 t2 t3 t4 : Nat)
    (hs : sA ≠ sB) (hu : uA ≠ uB) :
    (findRandomPartner matchingPreferences
      (findRandomPartner matchingPreferences
        ((registerUser ((registerUser emptyState sA uA emptyInfo t1).1) sB uB emptyInfo t2).1)
        sA rA t3).1
      sB rB t4).2 =
    [(Target.sock sB, Event.partnerFound rB uA "" ""),
     (Target.sock sA, Event.incomingCall rB uB "" "")] := by
  have hs2 : sB ≠ sA := Ne.symm hs
  have hu2 : uB ≠ uA := Ne.symm hu
  simp [registerUser, findRandomPartner, findPartner, findPartnerAux, mapGet, mapSet,
        updateUser, setAdd, setDelete, mkUser, emptyInfo, emptyState, areUsersCompatible,
        matchingPreferences, hs, hu, hs2, hu2]

/-- Claim C1 witness: the amended statement evaluated on the concrete
scenario sockets and user ids. -/
theorem c1_witness :
    (findRandomPartner matchingPreferences
      (findRandomPartner matchingPreferences
        ((registerUser ((registerUser emptyState "sA" "A" emptyInfo 0).1) "sB" "B" emptyInfo 0).1)
        "sA" "r1" 0).1
      "sB" "r2" 0).2 =
    [(Target.sock "sB", Event.partnerFound "r2" "A" "" ""),
     (Target.sock "sA", Event.incomingCall "r2" "B" "" "")] :=
  c1_amended "sA" "sB" "A" "B" "r1" "r2" 0 0 0 0 (by decide) (by decide)

/-- Claim C2: areUsersCompatible is false for identical user ids;
otherwise it holds exactly when every enabled matching option finds the
corresponding profile fields equal as strings; in particular a required
institution mismatch alone forces incompatibility; and participants
registered with absent profile fields carry equal empty fields, so two
unspecified values match under any configuration. -/
theorem c2_compatible_spec (prefs : MatchingPreferences) (a b : User) :
    (a.userId = b.userId → areUsersCompatible prefs a b = false) ∧
    (a.userId ≠ b.userId →
      (areUsersCompatible prefs a b = true ↔
        ((prefs.sameUniversity = true → a.university = b.university) ∧
         (prefs.sameGender = true → a.gender = b.gender)))) ∧
    (prefs.sameUniversity = true → a.university ≠ b.university →
      areUsersCompatible prefs a b = false) ∧
    (∀ s1 u1 t1 s2 u2 t2, u1 ≠ u2 →
      areUsersCompatible prefs (mkUser s1 u1 emptyInfo t1) (mkUser s2 u2 emptyInfo t2)
        = true) := by
  refine ⟨?_, ?_, ?_, ?_⟩
  · intro h
    simp [areUsersCompatible, h]
  · intro h
    rcases prefs with ⟨su, sg, mw⟩
    cases su <;> cases sg <;>
      by_cases h1 : a.university = b.university <;>
        by_cases h2 : a.gender = b.gender <;>
          simp [areUsersCompatible, h, h1, h2]
  · intro hsu hne
    by_cases h : a.userId = b.userId
    · simp [areUsersCompatible, h]
    · simp [areUsersCompatible, h, hsu, hne]
  · intro s1 u1 t1 s2 u2 t2 h
    simp [areUsersCompatible, mkUser, emptyInfo, h]

/-- Claim C2 witness: the same-userId clause evaluated on two concrete
participants sharing the user id u under a fully demanding
configuration. -/
theorem c2_witness :
    areUsersCompatible ⟨true, true, 30000⟩ (mkUser "s1" "u" emptyInfo 0)
      (mkUser "s2" "u" emptyInfo 0) = false :=
  (c2_compatible_spec ⟨true, true, 30000⟩ (mkUser "s1" "u" emptyInfo 0)
    (mkUser "s2" "u" emptyInfo 0)).1 rfl

/-- Claim C4 (counterexample): after the A-B match, A is bound to session
r2 with partner B; re-registering A on the same connection resets both the
session identifier and the partner association to null, so the existing
session binding is removed rather than kept. -/
theorem c4_counterexample :
    (mapGet sMatched.connectedUsers "sA").map User.currentRoom = some (some "r2") ∧
    (mapGet sMatched.connectedUsers "sA").map User.partnerId = some (some "B") ∧
    (mapGet (registerUser sMatched "sA" "A" emptyInfo 5).1.connectedUsers "sA").map
      User.currentRoom = some none ∧
    (mapGet (registerUser sMatched "sA" "A" emptyInfo 5).1.connectedUsers "sA").map
      User.partnerId = some none := by
  refine ⟨by decide, by decide, by decide, by decide⟩

/-- Claim C4 (amended): re-registration on a connection replaces the whole
Participant record with a freshly built one: the profile fields are
replaced, and the session identifier and partner association are reset to
null rather than preserved; the session record itself is left untouched in
the session store. -/
theorem c4_amended (s : ServerState) (sid uid : String) (info : UserInfo) (now : Nat) :
    mapGet (registerUser s sid uid info now).1.connectedUsers sid
      = some (mkUser sid uid info now) ∧
    (mkUser sid uid info now).currentRoom = none ∧
    (mkUser sid uid info now).partnerId = none ∧
    (registerUser s sid uid info now).1.activeRooms = s.activeRooms := by
  refine ⟨?_, rfl, rfl, rfl⟩
  simp [registerUser, mapGet_mapSet_self]

/-- Claim C5 (counterexample): a registered caller holding no active
session sends rejectCall; the server emits nothing at all and leaves the
state unchanged — a silent drop, not the explicit error notice the claim
requires for rejectCall. -/
theorem c5_counterexample :
    rejectCall sRegOnly "sC" = (sRegOnly, []) := by
  decide

/-- Claim C5 (amended): for a connection with no active session,
acceptCall reports the explicit error notice, while rejectCall — exactly
like offer, answer and iceCandidate — is silently dropped with no emitted
message and no state change. -/
theorem c5_amended (s : ServerState) (sid sdp ty cand : String)
    (h : ∀ u, mapGet s.connectedUsers sid = some u → u.currentRoom = none) :
    (acceptCall s sid).2 = [(Target.sock sid, Event.errMsg "No active call to accept")] ∧
    rejectCall s sid = (s, []) ∧
    offer s sid sdp ty = (s, []) ∧
    answer s sid sdp ty = (s, []) ∧
    iceCandidate s sid cand = (s, []) := by
  rcases hm : mapGet s.connectedUsers sid with _ | u
  · refine ⟨?_, ?_, ?_, ?_, ?_⟩ <;>
      simp [acceptCall, rejectCall, offer, answer, iceCandidate, hm]
  · have hcr := h u hm
    refine ⟨?_, ?_, ?_, ?_, ?_⟩ <;>
      simp [acceptCall, rejectCall, offer, answer, iceCandidate, hm, hcr]

/-- Claim C5 witness: the amended statement evaluated on the idle
registered user C. -/
theorem c5_witness :
    (acceptCall sRegOnly "sC").2
      = [(Target.sock "sC", Event.errMsg "No active call to accept")] ∧
    rejectCall sRegOnly "sC" = (sRegOnly, []) ∧
    offer sRegOnly "sC" "sd" "of" = (sRegOnly, []) ∧
    answer sRegOnly "sC" "sd" "of" = (sRegOnly, []) ∧
    iceCandidate sRegOnly "sC" "ca" = (sRegOnly, []) :=
  c5_amended sRegOnly "sC" "sd" "of" "ca" (fun u hu => by
    have h1 : mapGet sRegOnly.connectedUsers "sC" = some uC := by decide
    rw [h1] at hu
    injection hu with h2
    rw [← h2]
    decide)

/-- Claim C6 (counterexample): acceptCall sent by A in the matched
scenario broadcasts call-accepted to the socket-io room of the session,
and the sender socket sA is a member of that room, so the control signal
is delivered back to the sending connection — not to the other
participant only. -/
theorem c6_counterexample :
    (acceptCall sMatched "sA").2 = [(Target.room "r2", Event.callAccepted "r2" "A")] ∧
    targetReaches sMatched (Target.room "r2") "sA" = true := by
  refine ⟨by decide, by decide⟩

/-- Claim C6 (amended): for a sender holding an active session, offer,
answer, iceCandidate, rejectCall and endCall are forwarded unmodified,
tagged with the sender userId, to the partner live socket only — never
back to the sending connection; acceptCall however is broadcast to the
session room, a destination that reaches both members including the
sender. -/
theorem c6_amended (s : ServerState) (sid sdp ty cand : String) (user : User)
    (rid : String) (room : Room) (partner : User)
    (h1 : mapGet s.connectedUsers sid = some user)
    (h2 : user.currentRoom = some rid)
    (h3 : mapGet s.activeRooms rid = some room)
    (h4 : room.getOtherUser user.userId = some partner)
    (h5 : partner.socketId ≠ sid) :
    ((offer s sid sdp ty).2
        = [(Target.sock partner.socketId, Event.offer sdp ty user.userId)] ∧
      Target.sock partner.socketId ≠ Target.sock sid) ∧
    (answer s sid sdp ty).2
      = [(Target.sock partner.socketId, Event.answer sdp ty user.userId)] ∧
    (iceCandidate s sid cand).2
      = [(Target.sock partner.socketId, Event.iceCandidate cand user.userId)] ∧
    (rejectCall s sid).2
      = [(Target.sock partner.socketId, Event.callRejected user.userId)] ∧
    (endCall s sid).2
      = [(Target.sock partner.socketId, Event.userLeft user.userId)] ∧
    (acceptCall s sid).2
      = [(Target.room room.roomId, Event.callAccepted room.roomId user.userId)] := by
  refine ⟨⟨?_, ?_⟩, ?_, ?_, ?_, ?_, ?_⟩
  · simp [offer, h1, h2, h3, h4]
  · simp [h5]
  · simp [answer, h1, h2, h3, h4]
  · simp [iceCandidate, h1, h2, h3, h4]
  · rcases hm : mapGet (updateUser s.connectedUsers sid clearRoomFields) partner.socketId
      with _ | pu <;>
      simp [rejectCall, h1, h2, h3, h4, hm]
  · rcases hm : mapGet (updateUser s.connectedUsers sid clearRoomFields) partner.socketId
      with _ | pu <;>
      simp [endCall, h1, h2, h3, h4, hm]
  · simp [acceptCall, h1, h2, h3, h4]

/-- Claim C6 witness: the amended statement evaluated on the hand-built
session between A and B. -/
theorem c6_witness :
    ((offer sessionState "sA" "sd" "of").2
        = [(Target.sock uB1.socketId, Event.offer "sd" "of" uA1.userId)] ∧
      Target.sock uB1.socketId ≠ Target.sock "sA") ∧
    (answer sessionState "sA" "sd" "of").2
      = [(Target.sock uB1.socketId, Event.answer "sd" "of" uA1.userId)] ∧
    (iceCandidate sessionState "sA" "ca").2
      = [(Target.sock uB1.socketId, Event.iceCandidate "ca" uA1.userId)] ∧
    (rejectCall sessionState "sA").2
      = [(Target.sock uB1.socketId, Event.callRejected uA1.userId)] ∧
    (endCall sessionState "sA").2
      = [(Target.sock uB1.socketId, Event.userLeft uA1.userId)] ∧
    (acceptCall sessionState "sA").2
      = [(Target.room roomAB.roomId, Event.callAccepted roomAB.roomId uA1.userId)] :=
  c6_amended sessionState "sA" "sd" "of" "ca" uA1 "r" roomAB uB1 (by decide) (by decide)
    (by decide) (by decide) (by decide)

/-- Claim C7 (counterexample): in the session pairing user ids A and B,
the id C matches neither member, yet getOtherUser does not fail — it
returns the first member of the session. -/
theorem c7_counterexample :
    ("C" ≠ uA1.userId ∧ "C" ≠ uB1.userId) ∧ roomAB.getOtherUser "C" = some uA1 := by
  refine ⟨⟨by decide, by decide⟩, by decide⟩

/-- Claim C7 (amended): for a two-member session, getOtherUser returns the
peer when the given id matches exactly one member; but for an id matching
neither member it does not fail with a partner-not-found error — it
returns the first member of the session. -/
theorem c7_amended (u1 u2 : User) (rid : String) (t : Nat) (b : Bool) (x : String)
    (h : u1.userId ≠ u2.userId) (hx : x ≠ u1.userId) :
    (Room.mk rid [u1, u2] t b).getOtherUser u1.userId = some u2 ∧
    (Room.mk rid [u1, u2] t b).getOtherUser u2.userId = some u1 ∧
    (Room.mk rid [u1, u2] t b).getOtherUser x = some u1 := by
  refine ⟨?_, ?_, ?_⟩
  · have hb : (u2.userId != u1.userId) = true := bne_iff_ne.mpr (Ne.symm h)
    simp [Room.getOtherUser, List.find?, hb]
  · have hb : (u1.userId != u2.userId) = true := bne_iff_ne.mpr h
    simp [Room.getOtherUser, List.find?, hb]
  · have hb : (u1.userId != x) = true := bne_iff_ne.mpr (Ne.symm hx)
    simp [Room.getOtherUser, List.find?, hb]

/-- Claim C7 witness: the amended statement evaluated on the hand-built
session members A and B with the non-member id Z. -/
theorem c7_witness :
    (Room.mk "r" [uA1, uB1] 0 true).getOtherUser uA1.userId = some uB1 ∧
    (Room.mk "r" [uA1, uB1] 0 true).getOtherUser uB1.userId = some uA1 ∧
    (Room.mk "r" [uA1, uB1] 0 true).getOtherUser "Z" = some uA1 :=
  c7_amended uA1 uB1 "r" 0 true "Z" (by decide) (by decide)

theorem acceptCall_state (s : ServerState) (sid : String) : (acceptCall s sid).1 = s := by
  rcases hm : mapGet s.connectedUsers sid with _ | user
  · simp [acceptCall, hm]
  · rcases hcr : user.currentRoom with _ | rid
    · simp [acceptCall, hm, hcr]
    · rcases hr : mapGet s.activeRooms rid with _ | room
      · simp [acceptCall, hm, hcr, hr]
      · rcases ho : room.getOtherUser user.userId with _ | p2 <;>
          simp [acceptCall, hm, hcr, hr, ho]

theorem offer_state (s : ServerState) (sid sdp ty : String) : (offer s sid sdp ty).1 = s := by
  rcases hm : mapGet s.connectedUsers sid with _ | user
  · simp [offer, hm]
  · rcases hcr : user.currentRoom with _ | rid
    · simp [offer, hm, hcr]
    · rcases hr : mapGet s.activeRooms rid with _ | room
      · simp [offer, hm, hcr, hr]
      · rcases ho : room.getOtherUser user.userId with _ | p2 <;>
          simp [offer, hm, hcr, hr, ho]

theorem answer_state (s : ServerState) (sid sdp ty : String) :
    (answer s sid sdp ty).1 = s := by
  rcases hm : mapGet s.connectedUsers sid with _ | user
  · simp [answer, hm]
  · rcases hcr : user.currentRoom with _ | rid
    · simp [answer, hm, hcr]
    · rcases hr : mapGet s.activeRooms rid with _ | room
      · simp [answer, hm, hcr, hr]
      · rcases ho : room.getOtherUser user.userId with _ | p2 <;>
          simp [answer, hm, hcr, hr, ho]

theorem iceCandidate_state (s : ServerState) (sid cand : String) :
    (iceCandidate s sid cand).1 = s := by
  rcases hm : mapGet s.connectedUsers sid with _ | user
  · simp [iceCandidate, hm]
  · rcases hcr : user.currentRoom with _ | rid
    · simp [iceCandidate, hm, hcr]
    · rcases hr : mapGet s.activeRooms rid with _ | room
      · simp [iceCandidate, hm, hcr, hr]
      · rcases ho : room.getOtherUser user.userId with _ | p2 <;>
          simp [iceCandidate, hm, hcr, hr, ho]

/-- The state reached by register(A); A.search(); register(A) again, all
on the same connection s1. -/
def sC3 : ServerState :=
  (registerUser (findRandomPartner matchingPreferences
    (registerUser emptyState "s1" "A" emptyInfo 0).1 "s1" "r" 0).1 "s1" "A" emptyInfo 1).1

/-- The value of the User object captured by the first search's deadline
timer in the history of sC3: the entry as the search left it, frozen by
the later re-registration (which replaces the stored object without
mutating the old one). -/
def capturedA : User := { mkUser "s1" "A" emptyInfo 0 with isWaiting := true }

/-- sC3 followed by a second search on the same connection: the fresh
record turns Searching again, the dangling queue entry is reused, and the
queue invariant holds in this state. -/
def sC3b : ServerState :=
  (findRandomPartner matchingPreferences sC3 "s1" "r2" 2).1

/-- The registry entry of sC3b: the re-registered record, Searching. -/
def w1C3 : User := { mkUser "s1" "A" emptyInfo 1 with isWaiting := true }

/-- Claim C3 (counterexample): after register(A); search(A); and a
re-registration of A on the same connection, the socket is still in the
matching queue but its registered participant is no longer Searching — the
queue-membership invariant fails right after the re-registration.
Moreover, after A searches again (a state where the invariant holds), the
first search's deadline timer — whose captured object the re-registration
made stale — fires, deletes the queue entry of the currently Searching
participant, and breaks the invariant once more. -/
theorem c3_counterexample :
    ¬ queueInv sC3 ∧
    queueInv sC3b ∧
    ¬ queueInv (searchTimeout sC3b "s1" capturedA false).1 := by
  refine ⟨?_, ?_, ?_⟩
  · intro h
    have h1 : "s1" ∈ sC3.waitingUsers := by decide
    have h2 := (h "s1").mp h1
    unfold waitingAt at h2
    obtain ⟨u, hu, hw⟩ := h2
    have h3 : mapGet sC3.connectedUsers "s1" = some (mkUser "s1" "A" emptyInfo 1) := by
      decide
    rw [h3] at hu
    injection hu with h4
    rw [← h4] at hw
    exact absurd hw (by decide)
  · have hl : sC3b.connectedUsers = [("s1", w1C3)] := by decide
    have hw : sC3b.waitingUsers = ["s1"] := by decide
    intro x
    rw [hw]
    unfold waitingAt
    rw [hl]
    by_cases hx : x = "s1"
    · subst hx
      constructor
      · intro _
        exact ⟨w1C3, by decide, rfl⟩
      · intro _
        exact List.mem_singleton.mpr rfl
    · constructor
      · intro hmem
        exact absurd (List.mem_singleton.mp hmem) hx
      · rintro ⟨u, hu, _⟩
        have hne : ¬ ("s1" == x) = true := by
          simp only [beq_iff_eq]
          exact fun hh => hx hh.symm
        simp only [mapGet, if_neg hne] at hu
        cases hu
  · intro h
    have h6 : mapGet (searchTimeout sC3b "s1" capturedA false).1.connectedUsers "s1"
        = some w1C3 := by decide
    have h7 := (h "s1").mpr ⟨w1C3, h6, rfl⟩
    have h5 : (searchTimeout sC3b "s1" capturedA false).1.waitingUsers = [] := by
      decide
    rw [h5] at h7
    cases h7

/-- Claim C3 (amended): queue membership coincides with the Searching
state after every operation that acts on current data — registration of a
connection not currently queued, search (with or without a match), a
search timeout whose captured participant object is still the registry
entry, the relay and call-control handlers, end-call, reject-call and
disconnect.  It fails after re-registration of a connection whose entry is
still queued, which leaves a dangling queue entry; and a deadline timer
made stale by such a re-registration can fire later and delete the queue
entry of a currently Searching participant, breaking the invariant again
(both in the counterexample).  A cancel message has no handler in the
source and is a no-op.  The registry key discipline is preserved
alongside. -/
theorem c3_amended (prefs : MatchingPreferences) (s : ServerState)
    (hk : keyInv s) (hq : queueInv s) :
    (∀ sid uid info now, sid ∉ s.waitingUsers →
      keyInv (registerUser s sid uid info now).1 ∧
      queueInv (registerUser s sid uid info now).1) ∧
    (∀ sid rid now,
      keyInv (findRandomPartner prefs s sid rid now).1 ∧
      queueInv (findRandomPartner prefs s sid rid now).1) ∧
    (∀ sid u, keyInv (searchTimeout s sid u true).1 ∧
      queueInv (searchTimeout s sid u true).1) ∧
    (∀ sid, (acceptCall s sid).1 = s) ∧
    (∀ sid sdp ty, (offer s sid sdp ty).1 = s) ∧
    (∀ sid sdp ty, (answer s sid sdp ty).1 = s) ∧
    (∀ sid cand, (iceCandidate s sid cand).1 = s) ∧
    (∀ sid, keyInv (rejectCall s sid).1 ∧ queueInv (rejectCall s sid).1) ∧
    (∀ sid, keyInv (endCall s sid).1 ∧ queueInv (endCall s sid).1) ∧
    (∀ sid, keyInv (disconnectHandler s sid).1 ∧ queueInv (disconnectHandler s sid).1) := by
  refine ⟨?_, ?_, ?_, acceptCall_state s, offer_state s, answer_state s,
    iceCandidate_state s, ?_, ?_, ?_⟩
  · intro sid uid info now hns
    constructor
    · exact keyInvM_mapSet _ _ _ rfl hk
    · exact queueInvM_mapSet_notWaiting _ _ _ _ rfl hns hq
  · intro sid rid now
    rcases hm : mapGet s.connectedUsers sid with _ | user
    · have he : (findRandomPartner prefs s sid rid now).1 = s := by
        simp [findRandomPartner, hm]
      rw [he]
      exact ⟨hk, hq⟩
    · by_cases hww : user.isWaiting = true
      · have he : (findRandomPartner prefs s sid rid now).1 = s := by
          simp [findRandomPartner, hm, hww]
        rw [he]
        exact ⟨hk, hq⟩
      · rcases hp : findPartner prefs s user with _ | partner
        · constructor
          · simp only [findRandomPartner, hm, hww, hp]
            exact keyInvM_updateUser _ _ _ (fun v => rfl) hk
          · simp only [findRandomPartner, hm, hww, hp]
            exact queueInvM_force_true _ _ _ _ user hm (fun v => rfl) hq
        · have hus : user.socketId = sid := keyInv_lookup hk hm
          constructor
          · simp only [findRandomPartner, hm, hww, hp]
            exact keyInvM_updateUser _ _ _ (fun v => rfl)
              (keyInvM_updateUser _ _ _ (fun v => rfl) hk)
          · simp only [findRandomPartner, hm, hww, hp]
            rw [hus]
            exact queueInvM_force_false _ _ _ _ (fun v => rfl)
              (queueInvM_force_false _ _ _ _ (fun v => rfl) hq)
  · intro sid u
    by_cases hc : (u.isWaiting && s.waitingUsers.contains sid) = true
    · constructor
      · simp only [searchTimeout, hc, if_true]
        exact keyInvM_updateUser _ _ _ (fun v => rfl) hk
      · simp only [searchTimeout, hc, if_true]
        exact queueInvM_force_false _ _ _ _ (fun v => rfl) hq
    · have hc2 : ¬(u.isWaiting = true ∧ sid ∈ s.waitingUsers) := by simpa using hc
      have he : (searchTimeout s sid u true).1 = s := by simp [searchTimeout, hc2]
      rw [he]
      exact ⟨hk, hq⟩
  · intro sid
    rcases hm : mapGet s.connectedUsers sid with _ | user
    · have he : (rejectCall s sid).1 = s := by simp [rejectCall, hm]
      rw [he]
      exact ⟨hk, hq⟩
    · rcases hcr : user.currentRoom with _ | rid
      · have he : (rejectCall s sid).1 = s := by simp [rejectCall, hm, hcr]
        rw [he]
        exact ⟨hk, hq⟩
      · rcases hr : mapGet s.activeRooms rid with _ | room
        · have he : (rejectCall s sid).1 = s := by simp [rejectCall, hm, hcr, hr]
          rw [he]
          exact ⟨hk, hq⟩
        · rcases ho : room.getOtherUser user.userId with _ | partner
          · have he : (rejectCall s sid).1 = s := by simp [rejectCall, hm, hcr, hr, ho]
            rw [he]
            exact ⟨hk, hq⟩
          · rcases hm2 : mapGet (updateUser s.connectedUsers sid clearRoomFields)
                partner.socketId with _ | pu
            · constructor
              · simp only [rejectCall, hm, hcr, hr, ho, hm2]
                exact keyInvM_updateUser _ _ _ (fun v => rfl) hk
              · simp only [rejectCall, hm, hcr, hr, ho, hm2]
                exact queueInvM_updateUser_preserve _ _ _ _ (fun v => rfl) hq
            · constructor
              · simp only [rejectCall, hm, hcr, hr, ho, hm2]
                exact keyInvM_updateUser _ _ _ (fun v => rfl)
                  (keyInvM_updateUser _ _ _ (fun v => rfl) hk)
              · simp only [rejectCall, hm, hcr, hr, ho, hm2]
                exact queueInvM_updateUser_preserve _ _ _ _ (fun v => rfl)
                  (queueInvM_updateUser_preserve _ _ _ _ (fun v => rfl) hq)
  · intro sid
    rcases hm : mapGet s.connectedUsers sid with _ | user
    · have he : (endCall s sid).1 = s := by simp [endCall, hm]
      rw [he]
      exact ⟨hk, hq⟩
    · rcases hcr : user.currentRoom with _ | rid
      · have he : (endCall s sid).1 = s := by simp [endCall, hm, hcr]
        rw [he]
        exact ⟨hk, hq⟩
      · rcases hr : mapGet s.activeRooms rid with _ | room
        · have he : (endCall s sid).1 = s := by simp [endCall, hm, hcr, hr]
          rw [he]
          exact ⟨hk, hq⟩
        · rcases ho : room.getOtherUser user.userId with _ | partner
          · constructor
            · simp only [endCall, hm, hcr, hr, ho]
              exact keyInvM_updateUser _ _ _ (fun v => rfl) hk
            · simp only [endCall, hm, hcr, hr, ho]
              exact queueInvM_updateUser_preserve _ _ _ _ (fun v => rfl) hq
          · rcases hm2 : mapGet (updateUser s.connectedUsers sid clearRoomFields)
                partner.socketId with _ | pu
            · constructor
              · simp only [endCall, hm, hcr, hr, ho, hm2]
                exact keyInvM_updateUser _ _ _ (fun v => rfl) hk
              · simp only [endCall, hm, hcr, hr, ho, hm2]
                exact queueInvM_updateUser_preserve _ _ _ _ (fun v => rfl) hq
            · constructor
              · simp only [endCall, hm, hcr, hr, ho, hm2]
                exact keyInvM_updateUser _ _ _ (fun v => rfl)
                  (keyInvM_updateUser _ _ _ (fun v => rfl) hk)
              · simp only [endCall, hm, hcr, hr, ho, hm2]
                exact queueInvM_updateUser_preserve _ _ _ _ (fun v => rfl)
                  (queueInvM_updateUser_preserve _ _ _ _ (fun v => rfl) hq)
  · intro sid
    rcases hm : mapGet s.connectedUsers sid with _ | user
    · have he : (disconnectHandler s sid).1 = s := by simp [disconnectHandler, hm]
      rw [he]
      exact ⟨hk, hq⟩
    · rcases hcr : user.currentRoom with _ | rid
      · constructor
        · simp only [disconnectHandler, hm, hcr]
          exact keyInvM_mapDelete _ _ hk
        · simp only [disconnectHandler, hm, hcr]
          exact queueInvM_delete _ _ _ hq
      · rcases hr : mapGet s.activeRooms rid with _ | room
        · constructor
          · simp only [disconnectHandler, hm, hcr, hr]
            exact keyInvM_mapDelete _ _ hk
          · simp only [disconnectHandler, hm, hcr, hr]
            exact queueInvM_delete _ _ _ hq
        · rcases ho : room.getOtherUser user.userId with _ | partner
          · constructor
            · simp only [disconnectHandler, hm, hcr, hr, ho]
              exact keyInvM_mapDelete _ _ hk
            · simp only [disconnectHandler, hm, hcr, hr, ho]
              exact queueInvM_delete _ _ _ hq
          · rcases hm2 : mapGet s.connectedUsers partner.socketId with _ | pu
            · constructor
              · simp only [disconnectHandler, hm, hcr, hr, ho, hm2]
                exact keyInvM_mapDelete _ _ hk
              · simp only [disconnectHandler, hm, hcr, hr, ho, hm2]
                exact queueInvM_delete _ _ _ hq
            · constructor
              · simp only [disconnectHandler, hm, hcr, hr, ho, hm2]
                exact keyInvM_mapDelete _ _ (keyInvM_updateUser _ _ _ (fun v => rfl) hk)
              · simp only [disconnectHandler, hm, hcr, hr, ho, hm2]
                exact queueInvM_delete _ _ _
                  (queueInvM_updateUser_preserve _ _ _ _ (fun v => rfl) hq)

/-- Claim C3 witness: preservation applied to a registration on the empty
state, whose queue is empty. -/
theorem c3_witness :
    keyInv (registerUser emptyState "s1" "A" emptyInfo 0).1 ∧
    queueInv (registerUser emptyState "s1" "A" emptyInfo 0).1 := by
  have hk : keyInv emptyState := by
    intro p hp
    cases hp
  have hq : queueInv emptyState := by
    intro x
    constructor
    · intro hx
      cases hx
    · intro hx
      unfold waitingAt at hx
      obtain ⟨u, hu, _⟩ := hx
      cases hu
  exact (c3_amended matchingPreferences emptyState hk hq).1 "s1" "A" emptyInfo 0
    (by decide)

theorem findRandomPartner_targets (prefs : MatchingPreferences) (s : ServerState)
    (sid rid : String) (now : Nat) (x : String)
    (hk : keyInv s) (hx : x ∉ s.waitingUsers) (hxs : sid ≠ x) :
    ∀ te ∈ (findRandomPartner prefs s sid rid now).2, te.1 ≠ Target.sock x := by
  rcases hm : mapGet s.connectedUsers sid with _ | user
  · intro te hte
    simp [findRandomPartner, hm] at hte
    rw [hte]
    simp [hxs]
  · by_cases hww : user.isWaiting = true
    · intro te hte
      simp [findRandomPartner, hm, hww] at hte
      rw [hte]
      simp [hxs]
    · rcases hp : findPartner prefs s user with _ | partner
      · intro te hte
        simp [findRandomPartner, hm, hww, hp] at hte
        rw [hte]
        simp [hxs]
      · obtain ⟨w, hwmem, hwget, _⟩ := findPartner_spec prefs s user partner hp
        have hps : partner.socketId = w := keyInv_lookup hk hwget
        have hpx : partner.socketId ≠ x := by
          rw [hps]
          intro hh
          rw [hh] at hwmem
          exact hx hwmem
        intro te hte
        simp [findRandomPartner, hm, hww, hp] at hte
        rcases hte with hte2 | hte2
        · rw [hte2]
          simp [hxs]
        · rw [hte2]
          simp [hpx]

/-- Claim C8: once the per-search deadline fires for a queued searching
participant (the deadline armed by that very search, whose closure
captured the participant object that is still the current registry
entry), its queue entry is gone, and a match attempted afterwards by any
other connection can neither select that participant nor deliver any
notification to it — in particular it never receives partnerFound (nor
incomingCall) for such a match. -/
theorem c8_timeout_excludes (prefs : MatchingPreferences) (s : ServerState)
    (sidT : String) (u : User) (hk : keyInv s)
    (_hu : mapGet s.connectedUsers sidT = some u) (hw : u.isWaiting = true) :
    sidT ∉ (searchTimeout s sidT u true).1.waitingUsers ∧
    ∀ sid rid now te, sid ≠ sidT →
      te ∈ (findRandomPartner prefs (searchTimeout s sidT u true).1 sid rid now).2 →
      te.1 ≠ Target.sock sidT := by
  by_cases hc : s.waitingUsers.contains sidT = true
  · have hcond : (u.isWaiting && s.waitingUsers.contains sidT) = true := by
      rw [hw, hc]
      rfl
    have hcond2 : u.isWaiting = true ∧ sidT ∈ s.waitingUsers := by simpa using hcond
    have he : (searchTimeout s sidT u true).1 = { s with
        waitingUsers := setDelete s.waitingUsers sidT,
        connectedUsers := updateUser s.connectedUsers sidT
          (fun v => { v with isWaiting := false }) } := by
      simp [searchTimeout, hcond2]
    constructor
    · rw [he]
      intro hmem
      rw [mem_setDelete] at hmem
      exact hmem.2 rfl
    · intro sid rid now te hne hte
      refine findRandomPartner_targets prefs _ sid rid now sidT ?_ ?_ hne te hte
      · rw [he]
        exact keyInvM_updateUser _ _ _ (fun v => rfl) hk
      · rw [he]
        intro hmem
        rw [mem_setDelete] at hmem
        exact hmem.2 rfl
  · have hnm : sidT ∉ s.waitingUsers := by
      intro hmem
      exact hc (by simpa using hmem)
    have hc2 : ¬(u.isWaiting = true ∧ sidT ∈ s.waitingUsers) := fun hh => hnm hh.2
    have he : (searchTimeout s sidT u true).1 = s := by simp [searchTimeout, hc2]
    constructor
    · rw [he]
      exact hnm
    · intro sid rid now te hne hte
      rw [he] at hte
      exact findRandomPartner_targets prefs s sid rid now sidT hk hnm hne te hte

/-- The searching participant T waiting in the queue, used as the C8
witness state. -/
def uT : User :=
  { socketId := "sT", userId := "T", university := "", gender := "", year := "",
    joinedAt := 0, isWaiting := true, currentRoom := none, partnerId := none }

/-- The state holding only the queued searching participant T. -/
def sT : ServerState :=
  { connectedUsers := [("sT", uT)], waitingUsers := ["sT"], activeRooms := [],
    roomMembers := [] }

/-- Claim C8 witness: the deadline fires for T; afterwards T is out of
the queue, and a search attempted by an unregistered socket sX emits its
error to sX only — nothing reaches sT. -/
theorem c8_witness :
    "sT" ∉ (searchTimeout sT "sT" uT true).1.waitingUsers ∧
    Target.sock "sX" ≠ Target.sock "sT" := by
  have hk : keyInv sT := by
    intro p hp
    rcases List.mem_singleton.mp hp with h
    rw [h]
    rfl
  have h := c8_timeout_excludes matchingPreferences sT "sT" uT hk (by decide) (by decide)
  refine ⟨h.1, ?_⟩
  exact h.2 "sX" "r" 0 (Target.sock "sX", Event.errMsg "User not registered")
    (by decide) (by decide)

/-- Claim C9: closing a session through end-call is idempotent — a second
end-call from the same connection after a first one leaves the registry,
queue and session store exactly as the first one did and emits nothing (in
particular, no error); and an end-call issued by a connection holding no
session binding (e.g. after a disconnect already tore the session down) is
a silent no-op. -/
theorem c9_endCall_idempotent (s : ServerState) (sid : String) :
    endCall (endCall s sid).1 sid = ((endCall s sid).1, []) ∧
    ((∀ u, mapGet s.connectedUsers sid = some u → u.currentRoom = none) →
      endCall s sid = (s, [])) := by
  constructor
  · rcases hm : mapGet s.connectedUsers sid with _ | user
    · have he : endCall s sid = (s, []) := by simp [endCall, hm]
      rw [he]
      exact he
    · rcases hcr : user.currentRoom with _ | rid
      · have he : endCall s sid = (s, []) := by simp [endCall, hm, hcr]
        rw [he]
        exact he
      · rcases hr : mapGet s.activeRooms rid with _ | room
        · have he : endCall s sid = (s, []) := by simp [endCall, hm, hcr, hr]
          rw [he]
          exact he
        · rcases ho : room.getOtherUser user.userId with _ | partner
          · have he : endCall s sid = ({ s with
                activeRooms := mapDelete s.activeRooms room.roomId,
                connectedUsers := updateUser s.connectedUsers sid clearRoomFields },
                []) := by
              simp [endCall, hm, hcr, hr, ho]
            rw [he]
            have hm2 : mapGet (updateUser s.connectedUsers sid clearRoomFields) sid
                = some (clearRoomFields user) := by
              rw [mapGet_updateUser, if_pos rfl, hm]
              rfl
            simp [endCall, hm2, clearRoomFields]
          · rcases hm2 : mapGet (updateUser s.connectedUsers sid clearRoomFields)
                partner.socketId with _ | pu
            · have he : endCall s sid = ({ s with
                  activeRooms := mapDelete s.activeRooms room.roomId,
                  connectedUsers := updateUser s.connectedUsers sid clearRoomFields },
                  [(Target.sock partner.socketId, Event.userLeft user.userId)]) := by
                simp [endCall, hm, hcr, hr, ho, hm2]
              rw [he]
              have hm3 : mapGet (updateUser s.connectedUsers sid clearRoomFields) sid
                  = some (clearRoomFields user) := by
                rw [mapGet_updateUser, if_pos rfl, hm]
                rfl
              simp [endCall, hm3, clearRoomFields]
            · have he : endCall s sid = ({ s with
                  activeRooms := mapDelete s.activeRooms room.roomId,
                  connectedUsers := updateUser (updateUser s.connectedUsers sid
                    clearRoomFields) partner.socketId clearRoomFields },
                  [(Target.sock partner.socketId, Event.userLeft user.userId)]) := by
                simp [endCall, hm, hcr, hr, ho, hm2]
              rw [he]
              have hin : mapGet (updateUser s.connectedUsers sid clearRoomFields) sid
                  = some (clearRoomFields user) := by
                rw [mapGet_updateUser, if_pos rfl, hm]
                rfl
              by_cases hps : sid = partner.socketId
              · have hm3 : mapGet (updateUser (updateUser s.connectedUsers sid
                    clearRoomFields) partner.socketId clearRoomFields) sid
                    = some (clearRoomFields (clearRoomFields user)) := by
                  rw [mapGet_updateUser, if_pos hps, hin]
                  rfl
                simp [endCall, hm3, clearRoomFields]
              · have hm3 : mapGet (updateUser (updateUser s.connectedUsers sid
                    clearRoomFields) partner.socketId clearRoomFields) sid
                    = some (clearRoomFields user) := by
                  rw [mapGet_updateUser, if_neg hps, hin]
                simp [endCall, hm3, clearRoomFields]
  · intro h
    rcases hm : mapGet s.connectedUsers sid with _ | user
    · simp [endCall, hm]
    · have hcr := h user hm
      simp [endCall, hm, hcr]

/-- Claim C9 witness: a second end-call after A ended the session with B
is a silent no-op, and an end-call from the sessionless registered user C
is a silent no-op. -/
theorem c9_witness :
    endCall (endCall sessionState "sA").1 "sA" = ((endCall sessionState "sA").1, []) ∧
    endCall sRegOnly "sC" = (sRegOnly, []) := by
  refine ⟨(c9_endCall_idempotent sessionState "sA").1, ?_⟩
  exact (c9_endCall_idempotent sRegOnly "sC").2 (fun u hu => by
    have h1 : mapGet sRegOnly.connectedUsers "sC" = some uC := by decide
    rw [h1] at hu
    injection hu with h2
    rw [← h2]
    decide)

theorem mapGet_eq_none {α : Type} (m : List (String × α)) (k : String)
    (h : ∀ q ∈ m, (q : String × α).1 ≠ k) : mapGet m k = none := by
  induction m with
  | nil => rfl
  | cons p ps ih =>
    have hp : ¬(p.1 == k) = true := by simpa using h p (List.mem_cons_self _ _)
    simp only [mapGet]
    rw [if_neg hp]
    exact ih (fun q hq => h q (List.mem_cons_of_mem _ hq))

theorem mapGet_filter_eq_none {α : Type} (g : String × α → Bool) (k : String) (v : α)
    (hg : g (k, v) = false) :
    ∀ m : List (String × α), (m.map Prod.fst).Nodup → mapGet m k = some v →
      mapGet (m.filter g) k = none := by
  intro m
  induction m with
  | nil =>
    intro _ h
    cases h
  | cons p ps ih =>
    intro hnd h
    obtain ⟨p1, p2⟩ := p
    rw [List.map_cons, List.nodup_cons] at hnd
    by_cases hc : p1 = k
    · subst hc
      have h2 : p2 = v := by
        simp only [mapGet] at h
        rw [if_pos (by simp)] at h
        injection h
      subst h2
      simp [List.filter_cons, hg]
      apply mapGet_eq_none
      intro q hq
      intro hqe
      have hqm : q.1 ∈ ps.map Prod.fst := List.mem_map_of_mem Prod.fst (List.mem_filter.mp hq).1
      rw [hqe] at hqm
      exact hnd.1 hqm
    · have h3 : mapGet ps k = some v := by
        simp only [mapGet] at h
        rw [if_neg (by simpa using hc)] at h
        exact h
      by_cases hgp : g (p1, p2) = true
      · simp only [List.filter_cons, hgp, if_true, mapGet]
        rw [if_neg (by simpa using hc)]
        exact ih hnd.2 h3
      · have hgp2 : g (p1, p2) = false := by
          cases hgpv : g (p1, p2)
          · rfl
          · exact absurd hgpv hgp
        simp [List.filter_cons, hgp2]
        exact ih hnd.2 h3

theorem mapGet_joinedAt_updateUser2 (m : List (String × User)) (sid1 sid2 : String)
    (f g : User → User) (hf : ∀ u, (f u).joinedAt = u.joinedAt)
    (hg : ∀ u, (g u).joinedAt = u.joinedAt) (w : String) :
    (mapGet (updateUser (updateUser m sid1 f) sid2 g) w).map User.joinedAt
      = (mapGet m w).map User.joinedAt := by
  rw [mapGet_joinedAt_updateUser (updateUser m sid1 f) sid2 g hg w]
  exact mapGet_joinedAt_updateUser m sid1 f hf w

theorem findRandomPartner_joinedAt (prefs : MatchingPreferences) (s : ServerState)
    (sid rid : String) (now : Nat) (w : String) :
    (mapGet (findRandomPartner prefs s sid rid now).1.connectedUsers w).map User.joinedAt
      = (mapGet s.connectedUsers w).map User.joinedAt := by
  rcases hm : mapGet s.connectedUsers sid with _ | user
  · simp [findRandomPartner, hm]
  · by_cases hww : user.isWaiting = true
    · simp [findRandomPartner, hm, hww]
    · rcases hp : findPartner prefs s user with _ | partner
      · simp only [findRandomPartner, hm, hww, hp]
        apply mapGet_joinedAt_updateUser
        intro v
        rfl
      · simp [findRandomPartner, hm, hww, hp]
        apply mapGet_joinedAt_updateUser2 <;> intro v <;> rfl

theorem searchTimeout_joinedAt (s : ServerState) (sid w : String) (u : User)
    (b : Bool) :
    (mapGet (searchTimeout s sid u b).1.connectedUsers w).map User.joinedAt
      = (mapGet s.connectedUsers w).map User.joinedAt := by
  by_cases hc : (u.isWaiting && s.waitingUsers.contains sid) = true
  · have hcp : u.isWaiting = true ∧ sid ∈ s.waitingUsers := by simpa using hc
    cases b
    · simp [searchTimeout, hcp]
    · simp only [searchTimeout, hc, if_true]
      show (mapGet (updateUser s.connectedUsers sid
          (fun v => { v with isWaiting := false })) w).map User.joinedAt
        = (mapGet s.connectedUsers w).map User.joinedAt
      apply mapGet_joinedAt_updateUser
      intro v
      rfl
  · have hc2 : ¬(u.isWaiting = true ∧ sid ∈ s.waitingUsers) := by simpa using hc
    simp [searchTimeout, hc2]

theorem rejectCall_joinedAt (s : ServerState) (sid w : String) :
    (mapGet (rejectCall s sid).1.connectedUsers w).map User.joinedAt
      = (mapGet s.connectedUsers w).map User.joinedAt := by
  rcases hm : mapGet s.connectedUsers sid with _ | user
  · simp [rejectCall, hm]
  · rcases hcr : user.currentRoom with _ | rid
    · simp [rejectCall, hm, hcr]
    · rcases hr : mapGet s.activeRooms rid with _ | room
      · simp [rejectCall, hm, hcr, hr]
      · rcases ho : room.getOtherUser user.userId with _ | partner
        · simp [rejectCall, hm, hcr, hr, ho]
        · rcases hm2 : mapGet (updateUser s.connectedUsers sid clearRoomFields)
              partner.socketId with _ | pu
          · simp only [rejectCall, hm, hcr, hr, ho, hm2]
            apply mapGet_joinedAt_updateUser
            intro v
            rfl
          · simp only [rejectCall, hm, hcr, hr, ho, hm2]
            apply mapGet_joinedAt_updateUser2 <;> intro v <;> rfl

theorem endCall_joinedAt (s : ServerState) (sid w : String) :
    (mapGet (endCall s sid).1.connectedUsers w).map User.joinedAt
      = (mapGet s.connectedUsers w).map User.joinedAt := by
  rcases hm : mapGet s.connectedUsers sid with _ | user
  · simp [endCall, hm]
  · rcases hcr : user.currentRoom with _ | rid
    · simp [endCall, hm, hcr]
    · rcases hr : mapGet s.activeRooms rid with _ | room
      · simp [endCall, hm, hcr, hr]
      · rcases ho : room.getOtherUser user.userId with _ | partner
        · simp only [endCall, hm, hcr, hr, ho]
          apply mapGet_joinedAt_updateUser
          intro v
          rfl
        · rcases hm2 : mapGet (updateUser s.connectedUsers sid clearRoomFields)
              partner.socketId with _ | pu
          · simp only [endCall, hm, hcr, hr, ho, hm2]
            apply mapGet_joinedAt_updateUser
            intro v
            rfl
          · simp only [endCall, hm, hcr, hr, ho, hm2]
            apply mapGet_joinedAt_updateUser2 <;> intro v <;> rfl

/-- Claim C10: the staleness clock of the periodic sweep is the
registration timestamp joinedAt: the sweep removes every sessionless
participant older than five minutes from both the registry and the queue
while emitting no notification — a participant actively Searching is
removed all the same — and no search, timeout, relay or call-control
activity ever refreshes joinedAt. -/
theorem c10_cleanup (prefs : MatchingPreferences) (s : ServerState) (now : Nat)
    (sid : String) (u : User)
    (hnd : (s.connectedUsers.map Prod.fst).Nodup)
    (hu : mapGet s.connectedUsers sid = some u)
    (hroom : u.currentRoom = none)
    (hold : maxInactiveTime < now - u.joinedAt) :
    mapGet (cleanupInactiveUsers s now).1.connectedUsers sid = none ∧
    sid ∉ (cleanupInactiveUsers s now).1.waitingUsers ∧
    (cleanupInactiveUsers s now).2 = [] ∧
    (∀ sid2 rid now2 w,
      (mapGet (findRandomPartner prefs s sid2 rid now2).1.connectedUsers w).map
        User.joinedAt = (mapGet s.connectedUsers w).map User.joinedAt) ∧
    (∀ sid2 u2 b w, (mapGet (searchTimeout s sid2 u2 b).1.connectedUsers w).map
      User.joinedAt = (mapGet s.connectedUsers w).map User.joinedAt) ∧
    (∀ sid2 w, (mapGet (acceptCall s sid2).1.connectedUsers w).map User.joinedAt
      = (mapGet s.connectedUsers w).map User.joinedAt) ∧
    (∀ sid2 w, (mapGet (rejectCall s sid2).1.connectedUsers w).map User.joinedAt
      = (mapGet s.connectedUsers w).map User.joinedAt) ∧
    (∀ sid2 sdp ty w, (mapGet (offer s sid2 sdp ty).1.connectedUsers w).map User.joinedAt
      = (mapGet s.connectedUsers w).map User.joinedAt) ∧
    (∀ sid2 sdp ty w, (mapGet (answer s sid2 sdp ty).1.connectedUsers w).map User.joinedAt
      = (mapGet s.connectedUsers w).map User.joinedAt) ∧
    (∀ sid2 cand w, (mapGet (iceCandidate s sid2 cand).1.connectedUsers w).map
      User.joinedAt = (mapGet s.connectedUsers w).map User.joinedAt) ∧
    (∀ sid2 w, (mapGet (endCall s sid2).1.connectedUsers w).map User.joinedAt
      = (mapGet s.connectedUsers w).map User.joinedAt) := by
  have hstale : isStaleUser now u = true := by
    simp [isStaleUser, hroom, hold]
  refine ⟨?_, ?_, rfl, ?_, ?_, ?_, ?_, ?_, ?_, ?_, ?_⟩
  · exact mapGet_filter_eq_none _ sid u (by simp [hstale]) s.connectedUsers hnd hu
  · intro hmem
    have h2 := (List.mem_filter.mp hmem).2
    simp [hu, hstale] at h2
  · exact fun sid2 rid now2 w => findRandomPartner_joinedAt prefs s sid2 rid now2 w
  · exact fun sid2 u2 b w => searchTimeout_joinedAt s sid2 w u2 b
  · intro sid2 w
    rw [acceptCall_state]
  · exact fun sid2 w => rejectCall_joinedAt s sid2 w
  · intro sid2 sdp ty w
    rw [offer_state]
  · intro sid2 sdp ty w
    rw [answer_state]
  · intro sid2 cand w
    rw [iceCandidate_state]
  · exact fun sid2 w => endCall_joinedAt s sid2 w

/-- A sessionless participant registered at time 0 and actively searching,
used as the C10 witness. -/
def uOld : User :=
  { socketId := "sO", userId := "O", university := "", gender := "", year := "",
    joinedAt := 0, isWaiting := true, currentRoom := none, partnerId := none }

/-- The state holding only the stale searching participant O. -/
def sOld : ServerState :=
  { connectedUsers := [("sO", uOld)], waitingUsers := ["sO"], activeRooms := [],
    roomMembers := [] }

/-- Claim C10 witness: at time 300001 the sweep evicts the actively
searching participant O (registered at time 0) from registry and queue,
emits nothing, and the sampled operations leave joinedAt untouched. -/
theorem c10_witness :
    mapGet (cleanupInactiveUsers sOld 300001).1.connectedUsers "sO" = none ∧
    "sO" ∉ (cleanupInactiveUsers sOld 300001).1.waitingUsers ∧
    (cleanupInactiveUsers sOld 300001).2 = [] ∧
    (mapGet (findRandomPartner matchingPreferences sOld "sX" "r" 7).1.connectedUsers
      "sO").map User.joinedAt = (mapGet sOld.connectedUsers "sO").map User.joinedAt ∧
    (mapGet (searchTimeout sOld "sO" uOld true).1.connectedUsers "sO").map
      User.joinedAt = (mapGet sOld.connectedUsers "sO").map User.joinedAt ∧
    (mapGet (endCall sOld "sO").1.connectedUsers "sO").map User.joinedAt
      = (mapGet sOld.connectedUsers "sO").map User.joinedAt := by
  have h := c10_cleanup matchingPreferences sOld 300001 "sO" uOld (by decide) (by decide)
    (by decide) (by decide)
  exact ⟨h.1, h.2.1, h.2.2.1, h.2.2.2.1 "sX" "r" 7 "sO",
    h.2.2.2.2.1 "sO" uOld true "sO", h.2.2.2.2.2.2.2.2.2.2 "sO" "sO"⟩
